import Mathlib

/-!
Verification development for the `ml_inference_benchmark` repository.

The repository benchmarks two execution strategies for a fixed two-layer
feed-forward network (`relu(x·W1 + b1)·W2 + b2`):

* `src/engines/naive.py` — `NaiveExecutionEngine.forward`, allocating a fresh
  array per operation;
* `src/engines/optimized.py` — `OptimizedExecutionEngine.forward`, writing
  in place into two pre-allocated scratch buffers and returning a view of the
  first `batch` rows of the output buffer;
* `src/models.py` — `MLPModel`, the deterministic weight provider;
* `src/utils.py` — `parse_input_string` / `tile_input_data`, the input
  boundary;
* `src/analyze.py` — `run_analysis`, the analysis entry point, including the
  comparison block of `'both'` mode.

Numeric arrays are embedded as `List (List ℚ)` (rows of rationals): the
claims under scrutiny are about exact data flow, shapes, buffer framing and
error propagation, all of which are faithfully visible over exact
arithmetic.  The in-place NumPy operations of the optimized engine are
embedded by explicit state passing: each `out=view` write is modelled as
replacing the first `batch` rows of the corresponding buffer.
-/

namespace MLBench

/-- Dot product of two vectors (`np.dot` on 1-D slices). -/
def dotProd (u v : List ℚ) : ℚ := (List.zipWith (· * ·) u v).sum

/-- Matrix product (`x @ W` / `np.dot(x, W)`): row `i`, column `j` is the dot
product of row `i` of `A` with column `j` of `B`. -/
def matMul (A B : List (List ℚ)) : List (List ℚ) :=
  A.map (fun row => (List.transpose B).map (fun col => dotProd row col))

/-- Broadcast row-wise bias addition (`M + b` / `np.add(M, b)`). -/
def addBias (M : List (List ℚ)) (b : List ℚ) : List (List ℚ) :=
  M.map (fun row => List.zipWith (· + ·) row b)

/-- Elementwise rectifier (`np.maximum(M, 0)`). -/
def reluM (M : List (List ℚ)) : List (List ℚ) :=
  M.map (List.map (fun v => max v 0))

/-- `NaiveExecutionEngine.forward` (src/engines/naive.py, lines 21-40):
`hidden_pre = x @ W1 + b1`; `hidden = np.maximum(hidden_pre, 0)`;
`output = hidden @ W2 + b2`. -/
def naiveForward (W1 : List (List ℚ)) (b1 : List ℚ) (W2 : List (List ℚ))
    (b2 : List ℚ) (x : List (List ℚ)) : List (List ℚ) :=
  let hidden_pre := addBias (matMul x W1) b1
  let hidden := reluM hidden_pre
  addBias (matMul hidden W2) b2

/-- `np.abs(out_base - out_opt).max()` (src/analyze.py, line 85): the maximum
elementwise absolute difference of two matrices (0 for empty data, as a fold
base). -/
def maxAbsDiff (A B : List (List ℚ)) : ℚ :=
  ((List.zipWith (fun r s => List.zipWith (fun a b => |a - b|) r s) A B).flatten).foldr max 0

/-- State of an `OptimizedExecutionEngine` (src/engines/optimized.py):
weights plus the two scratch buffers allocated once at construction. -/
structure OptEngine where
  W1 : List (List ℚ)
  b1 : List ℚ
  W2 : List (List ℚ)
  b2 : List ℚ
  hidden_buf : List (List ℚ)
  output_buf : List (List ℚ)
deriving DecidableEq

/-- `OptimizedExecutionEngine.__init__` (src/engines/optimized.py, lines
16-33): buffers `np.zeros((max_batch_size, hidden_dim))` and
`np.zeros((max_batch_size, output_dim))`. -/
def OptEngine.init (W1 : List (List ℚ)) (b1 : List ℚ) (W2 : List (List ℚ))
    (b2 : List ℚ) (max_batch_size hidden_dim output_dim : Nat) : OptEngine :=
  { W1 := W1, b1 := b1, W2 := W2, b2 := b2
  , hidden_buf := List.replicate max_batch_size (List.replicate hidden_dim 0)
  , output_buf := List.replicate max_batch_size (List.replicate output_dim 0) }

/-- `OptimizedExecutionEngine.forward` (src/engines/optimized.py, lines
35-70).  The capacity guard precedes all arithmetic; each in-place NumPy
write (`out=current_hidden` / `out=current_output`) is modelled by replacing
the first `batch_size` rows of the buffer, leaving the remaining rows as
they were.  Returns the view `output_buf[:batch_size]` together with the
engine state after the call. -/
def OptEngine.forward (e : OptEngine) (x : List (List ℚ)) :
    Except String (List (List ℚ)) × OptEngine :=
  let batch_size := x.length
  if batch_size > e.hidden_buf.length then
    (.error ("Batch size " ++ toString batch_size ++
      " exceeds allocated buffer size " ++ toString e.hidden_buf.length), e)
  else
    -- np.dot(x, self.W1, out=current_hidden)
    let hb1 := matMul x e.W1 ++ e.hidden_buf.drop batch_size
    -- np.add(current_hidden, self.b1, out=current_hidden)
    let hb2 := addBias (hb1.take batch_size) e.b1 ++ hb1.drop batch_size
    -- np.maximum(current_hidden, 0, out=current_hidden)
    let hb3 := reluM (hb2.take batch_size) ++ hb2.drop batch_size
    -- np.dot(current_hidden, self.W2, out=current_output)
    let ob1 := matMul (hb3.take batch_size) e.W2 ++ e.output_buf.drop batch_size
    -- np.add(current_output, self.b2, out=current_output)
    let ob2 := addBias (ob1.take batch_size) e.b2 ++ ob1.drop batch_size
    (.ok (ob2.take batch_size),
     { e with hidden_buf := hb3, output_buf := ob2 })

/-- Python `str.split(sep)` for a one-character separator, over the string's
characters.  Always returns at least one (possibly empty) token; splitting
the empty string yields `[[]]`, matching `"".split(',') == ['']`. -/
def pySplit (sep : Char) : List Char → List (List Char)
  | [] => [[]]
  | c :: rest =>
    match pySplit sep rest with
    | [] => [[c]]
    | t :: ts => if c = sep then [] :: t :: ts else (c :: t) :: ts

/-- Python `str.strip()`: remove leading and trailing whitespace. -/
def pyStrip (cs : List Char) : List Char :=
  ((cs.dropWhile Char.isWhitespace).reverse.dropWhile Char.isWhitespace).reverse

/-- Numeric value of a digit string (most significant first). -/
def digitsVal (ds : List Char) : Nat :=
  ds.foldl (fun a c => 10 * a + (c.toNat - 48)) 0

/-- Exponent digits: non-empty all-digit string. -/
def parseExpDigits (cs : List Char) : Option Int :=
  if cs ≠ [] ∧ cs.all Char.isDigit then some (digitsVal cs) else none

/-- Signed exponent of a float literal. -/
def parseExp : List Char → Option Int
  | '+' :: r => parseExpDigits r
  | '-' :: r => (parseExpDigits r).map Neg.neg
  | r => parseExpDigits r

/-- Unsigned part of Python's `float()` on decimal literals: digits,
optional fraction, optional exponent.  Fails on the empty string and on any
malformed remainder, as `float('')` / `float('x')` raise `ValueError`. -/
def pyFloatCore (cs : List Char) : Option ℚ :=
  let ip := cs.takeWhile Char.isDigit
  let rest := cs.dropWhile Char.isDigit
  match rest with
  | [] => if ip.isEmpty then none else some (digitsVal ip)
  | '.' :: r2 =>
    let fp := r2.takeWhile Char.isDigit
    let r3 := r2.dropWhile Char.isDigit
    if ip.isEmpty && fp.isEmpty then none
    else
      let mant : ℚ := (digitsVal ip : ℚ) + (digitsVal fp : ℚ) / (10 ^ fp.length)
      match r3 with
      | [] => some mant
      | 'e' :: r4 => (parseExp r4).map (fun k => mant * (10 : ℚ) ^ k)
      | 'E' :: r4 => (parseExp r4).map (fun k => mant * (10 : ℚ) ^ k)
      | _ => none
  | 'e' :: r2 =>
    if ip.isEmpty then none
    else (parseExp r2).map (fun k => (digitsVal ip : ℚ) * (10 : ℚ) ^ k)
  | 'E' :: r2 =>
    if ip.isEmpty then none
    else (parseExp r2).map (fun k => (digitsVal ip : ℚ) * (10 : ℚ) ^ k)
  | _ => none

/-- Python's `float()` builtin on decimal literals (model of the external
primitive used by `parse_input_string`): optional sign then `pyFloatCore`;
`none` models a raised `ValueError`. -/
def pyFloat : List Char → Option ℚ
  | '+' :: r => pyFloatCore r
  | '-' :: r => (pyFloatCore r).map Neg.neg
  | r => pyFloatCore r

/-- The list comprehension `[float(x.strip()) for x in input_str.split(',')]`:
first failing `float()` aborts the whole list. -/
def floatList : List (List Char) → Option (List ℚ)
  | [] => some []
  | t :: ts =>
    match pyFloat (pyStrip t) with
    | none => none
    | some q =>
      match floatList ts with
      | none => none
      | some qs => some (q :: qs)

/-- `parse_input_string` (src/utils.py, lines 6-11): parse a comma-separated
string into a list of floats; any `ValueError` from `float()` is replaced by
the fixed invalid-format message. -/
def parse_input_string (s : List Char) : Except String (List ℚ) :=
  match floatList (pySplit ',' s) with
  | some qs => .ok qs
  | none => .error "Invalid input format. Expected comma-separated floats (e.g., '1.0, 0.5, -0.2')."

/-- The single feature vector built by `tile_input_data` (src/utils.py,
lines 24-31): if the user vector is shorter than `input_dim` it is tiled
`input_dim // len + 1` times and truncated to `input_dim`
(`np.tile(feature_vector, repeats)[:input_dim]`), otherwise truncated. -/
def tileFeature (user_input : List ℚ) (input_dim : Nat) : List ℚ :=
  if user_input.length < input_dim then
    (List.flatten (List.replicate (input_dim / user_input.length + 1) user_input)).take input_dim
  else
    user_input.take input_dim

/-- `tile_input_data` (src/utils.py, lines 13-37): empty input raises; the
feature vector is replicated across the batch dimension by
`np.tile(feature_vector, (batch_size, 1))`, which for a negative batch size
raises NumPy's negative-dimension `ValueError`. -/
def tile_input_data (user_input : List ℚ) (batch_size : Int) (input_dim : Nat) :
    Except String (List (List ℚ)) :=
  if user_input.isEmpty then .error "Input data cannot be empty."
  else if batch_size < 0 then .error "negative dimensions are not allowed"
  else .ok (List.replicate batch_size.toNat (tileFeature user_input input_dim))

/-- Spec-side description of the tiled feature vector for Claim C3 (written
from the spec's words, to be compared with `tileFeature`): the user vector
cyclically repeated, truncated to length `d` — entry `i` is `v[i % len(v)]`. -/
def cyclicFeature (v : List ℚ) (d : Nat) : List ℚ :=
  (List.range d).map (fun i => v.getD (i % v.length) 0)

/-- `MLPModel`'s weight set (src/models.py): `W1, b1, W2, b2`. -/
structure MLPModel where
  W1 : List (List ℚ)
  b1 : List ℚ
  W2 : List (List ℚ)
  b2 : List ℚ

/-- `MLPModel.__init__` (src/models.py, lines 16-37).  The seeded NumPy
generator `np.random.RandomState(seed).randn` is an external deterministic
data source; it is embedded as a function `randn : seed → draw index → ℚ`
consumed in sequence: `W1` takes draws `0 .. input_dim*hidden_dim - 1`, `W2`
the following `hidden_dim*output_dim` draws, each scaled by `0.01`; `b1` and
`b2` are `np.zeros`. -/
def MLPModel.init (randn : Nat → Nat → ℚ)
    (input_dim hidden_dim output_dim seed : Nat) : MLPModel :=
  { W1 := (List.range input_dim).map (fun r =>
      (List.range hidden_dim).map (fun c =>
        randn seed (r * hidden_dim + c) * (1 / 100)))
  , b1 := List.replicate hidden_dim 0
  , W2 := (List.range hidden_dim).map (fun r =>
      (List.range output_dim).map (fun c =>
        randn seed (input_dim * hidden_dim + r * output_dim + c) * (1 / 100)))
  , b2 := List.replicate output_dim 0 }

/-- Output summary of `ExecutionProfiler.profile` (src/profiler.py, lines
52-57): `min`, `max`, `mean` of the last output.  NumPy reductions on a
zero-size array raise, which the model reports as the corresponding error. -/
def summarize (out : List (List ℚ)) : Except String (ℚ × ℚ × ℚ) :=
  match out.flatten with
  | [] => .error "zero-size array to reduction operation minimum which has no identity"
  | a :: rest =>
    .ok (rest.foldl min a, rest.foldl max a,
      (a :: rest).sum / ((a :: rest).length : ℚ))

/-- A `ProfileResult` (src/profiler.py, lines 8-12): latency, peak memory
and the output summary.  Latency and peak memory are wall-clock/allocator
measurements — external inputs to the model, supplied as parameters. -/
structure ProfileResult where
  latency_sec : ℚ
  peak_memory_kb : ℚ
  out_min : ℚ
  out_max : ℚ
  out_mean : ℚ

/-- `ExecutionProfiler.profile` applied to `NaiveExecutionEngine.forward`
(src/profiler.py, lines 23-63): the forward output of the (pure, stateless)
naive engine, summarized; measured latency/peak-memory are the `lat`/`mem`
parameters.  Warmup and repetition do not change the output of a
deterministic pure call, so one call stands for the loop. -/
def profileNaive (m : MLPModel) (lat mem : ℚ) (x : List (List ℚ)) :
    Except String ProfileResult :=
  let out := naiveForward m.W1 m.b1 m.W2 m.b2 x
  match summarize out with
  | .error e => .error e
  | .ok (mn, mx, mean) => .ok ⟨lat, mem, mn, mx, mean⟩

/-- `ExecutionProfiler.profile` applied to `OptimizedExecutionEngine.forward`:
one stateful forward call (repeated identical calls overwrite the same rows
with the same values), summarized; returns the engine state after the
profiled calls. -/
def profileOpt (e : OptEngine) (lat mem : ℚ) (x : List (List ℚ)) :
    Except String (ProfileResult × OptEngine) :=
  match e.forward x with
  | (.error msg, _) => .error msg
  | (.ok out, e2) =>
    match summarize out with
    | .error msg => .error msg
    | .ok (mn, mx, mean) => .ok (⟨lat, mem, mn, mx, mean⟩, e2)

/-- Execution mode of `run_analysis` (src/analyze.py). -/
inductive Mode
  | baseline
  | optimized
  | both
deriving DecidableEq

/-- Observable construction/profiling steps of `run_analysis`, used to state
in which order work happens and what has already happened when an error is
raised. -/
inductive Ev
  | parsedInput
  | tiledInput
  | modelInit
  | engineNaiveInit
  | engineOptInit
  | profiledBaseline
  | profiledOptimized
  | comparedResults
deriving DecidableEq

/-- Errors escaping `run_analysis`: input errors are the wrapped
`"Error preparing input: ..."` `ValueError`s of step 1 (src/analyze.py,
lines 26-30); everything else propagates unwrapped as an internal error. -/
inductive AnalysisError
  | inputError (msg : String)
  | internalError (msg : String)
deriving DecidableEq

/-- The comparison block of `'both'` mode (src/analyze.py, lines 76-90). -/
structure Comparison where
  speedup_x : ℚ
  memory_savings_percent : ℚ
  correctness : Bool
  max_diff : ℚ

/-- `speedup`, `mem_saved_pct`, `correctness`, `max_diff` exactly as computed
in src/analyze.py lines 76-84: `speedup = base.latency_sec / opt.latency_sec
if opt.latency_sec > 0 else 0`; `mem_saved_pct = (base.peak_memory_kb -
opt.peak_memory_kb) / base.peak_memory_kb * 100 if base.peak_memory_kb > 0
else 0`; `correctness = max_diff < 1e-4`. -/
def comparisonBlock (baseLat basePeak optLat optPeak : ℚ)
    (outBase outOpt : List (List ℚ)) : Comparison :=
  { speedup_x := if 0 < optLat then baseLat / optLat else 0
  , memory_savings_percent :=
      if 0 < basePeak then (basePeak - optPeak) / basePeak * 100 else 0
  , correctness := decide (maxAbsDiff outBase outOpt < 1 / 10000)
  , max_diff := maxAbsDiff outBase outOpt }

/-- The report `run_analysis` returns (timestamp and input preview omitted:
they are opaque strings irrelevant to every claim). -/
structure Report where
  mode : Mode
  batch_size : Int
  baseline : Option ProfileResult
  optimized : Option ProfileResult
  comparison : Option Comparison

/-- Discriminator: does a `run_analysis` outcome carry a user-facing input
error? -/
def resultIsInputError : Except AnalysisError Report → Bool
  | .error (.inputError _) => true
  | _ => false

/-- Fixed dimensions of src/analyze.py, lines 17-19. -/
def INPUT_DIM : Nat := 1024

/-- Fixed hidden dimension of src/analyze.py. -/
def HIDDEN_DIM : Nat := 4096

/-- Fixed output dimension of src/analyze.py. -/
def OUTPUT_DIM : Nat := 1024

/-- `run_analysis` (src/analyze.py, lines 21-94).  Step 1 parses and tiles,
wrapping any failure as an input error; step 2 initializes the model with the
fixed dimensions and seed 42; step 3 constructs the engines selected by the
mode, the optimized one with `max_batch_size := batch_size`; step 4 profiles
each engine (baseline first); step 5, in `'both'` mode, runs both engines
once more one-shot and computes the comparison block.  `randn` abstracts the
seeded weight generator, `latB/memB/latO/memO` the measured latencies and
peak memories.  The second component records which steps completed. -/
def runAnalysis (randn : Nat → Nat → ℚ) (latB memB latO memO : ℚ)
    (input_str : List Char) (batch_size : Int) (mode : Mode) :
    Except AnalysisError Report × List Ev :=
  match parse_input_string input_str with
  | .error e => (.error (.inputError ("Error preparing input: " ++ e)), [])
  | .ok raw_input =>
  match tile_input_data raw_input batch_size INPUT_DIM with
  | .error e => (.error (.inputError ("Error preparing input: " ++ e)), [.parsedInput])
  | .ok input_data =>
  let model := MLPModel.init randn INPUT_DIM HIDDEN_DIM OUTPUT_DIM 42
  match mode with
  | .baseline =>
    let evs : List Ev := [.parsedInput, .tiledInput, .modelInit, .engineNaiveInit]
    match profileNaive model latB memB input_data with
    | .error e => (.error (.internalError e), evs)
    | .ok res =>
      (.ok { mode := .baseline, batch_size := batch_size, baseline := some res
           , optimized := none, comparison := none },
       evs ++ [.profiledBaseline])
  | .optimized =>
    let evs : List Ev := [.parsedInput, .tiledInput, .modelInit, .engineOptInit]
    let eng := OptEngine.init model.W1 model.b1 model.W2 model.b2
      batch_size.toNat HIDDEN_DIM OUTPUT_DIM
    match profileOpt eng latO memO input_data with
    | .error e => (.error (.internalError e), evs)
    | .ok (res, _) =>
      (.ok { mode := .optimized, batch_size := batch_size, baseline := none
           , optimized := some res, comparison := none },
       evs ++ [.profiledOptimized])
  | .both =>
    let evs : List Ev := [.parsedInput, .tiledInput, .modelInit,
      .engineNaiveInit, .engineOptInit]
    let eng := OptEngine.init model.W1 model.b1 model.W2 model.b2
      batch_size.toNat HIDDEN_DIM OUTPUT_DIM
    match profileNaive model latB memB input_data with
    | .error e => (.error (.internalError e), evs)
    | .ok resB =>
    match profileOpt eng latO memO input_data with
    | .error e => (.error (.internalError e), evs ++ [.profiledBaseline])
    | .ok (resO, eng2) =>
      let out_base := naiveForward model.W1 model.b1 model.W2 model.b2 input_data
      match eng2.forward input_data with
      | (.error e, _) =>
        (.error (.internalError e), evs ++ [.profiledBaseline, .profiledOptimized])
      | (.ok out_opt, _) =>
        (.ok { mode := .both, batch_size := batch_size, baseline := some resB
             , optimized := some resO
             , comparison := some (comparisonBlock latB memB latO memO out_base out_opt) },
         evs ++ [.profiledBaseline, .profiledOptimized, .comparedResults])

theorem length_matMul (A B : List (List ℚ)) : (matMul A B).length = A.length :=
  List.length_map _ _

theorem length_addBias (M : List (List ℚ)) (b : List ℚ) :
    (addBias M b).length = M.length :=
  List.length_map _ _

theorem length_reluM (M : List (List ℚ)) : (reluM M).length = M.length :=
  List.length_map _ _

/-- Helper: full characterization of a successful optimized forward call.
When the batch fits the buffers, the returned view is exactly the naive
forward result, the first `batch` rows of both buffers are overwritten with
the intermediate/final results, and the rows beyond `batch` are untouched. -/
theorem OptEngine.forward_eq_of_le (e : OptEngine) (x : List (List ℚ))
    (h : x.length ≤ e.hidden_buf.length) :
    e.forward x =
      (.ok (naiveForward e.W1 e.b1 e.W2 e.b2 x),
       { e with
           hidden_buf := reluM (addBias (matMul x e.W1) e.b1) ++
             e.hidden_buf.drop x.length
           output_buf := naiveForward e.W1 e.b1 e.W2 e.b2 x ++
             e.output_buf.drop x.length }) := by
  have hg : ¬ x.length > e.hidden_buf.length := not_lt.mpr h
  have h1 : (matMul x e.W1).length = x.length := length_matMul x e.W1
  have h2 : (addBias (matMul x e.W1) e.b1).length = x.length := by
    rw [length_addBias, h1]
  have h3 : (reluM (addBias (matMul x e.W1) e.b1)).length = x.length := by
    rw [length_reluM, h2]
  have h4 : (matMul (reluM (addBias (matMul x e.W1) e.b1)) e.W2).length = x.length := by
    rw [length_matMul, h3]
  have h5 : (addBias (matMul (reluM (addBias (matMul x e.W1) e.b1)) e.W2) e.b2).length
      = x.length := by rw [length_addBias, h4]
  simp only [forward, if_neg hg, List.take_left' h1, List.drop_left' h1,
    List.take_left' h2, List.drop_left' h2, List.take_left' h3, List.drop_left' h3,
    List.take_left' h4, List.drop_left' h4, List.take_left' h5, naiveForward]

theorem foldr_max_eq_zero {l : List ℚ} (h : ∀ x ∈ l, x = 0) :
    l.foldr max 0 = 0 := by
  induction l with
  | nil => rfl
  | cons a t ih =>
    have ha : a = 0 := h a (by simp)
    have ht : t.foldr max 0 = 0 := ih (fun x hx => h x (by simp [hx]))
    simp [ha, ht]

theorem maxAbsDiff_self (A : List (List ℚ)) : maxAbsDiff A A = 0 := by
  unfold maxAbsDiff
  apply foldr_max_eq_zero
  intro x hx
  rcases List.mem_flatten.mp hx with ⟨l, hl, hxl⟩
  rw [List.zipWith_same] at hl
  rcases List.mem_map.mp hl with ⟨r, _, hr⟩
  rw [List.zipWith_same] at hr
  subst hr
  rcases List.mem_map.mp hxl with ⟨a, _, ha⟩
  simp [← ha]

theorem flatten_replicate_getElem? (v : List ℚ) :
    ∀ (k i : Nat), i < k * v.length →
      (List.flatten (List.replicate k v))[i]? = v[i % v.length]? := by
  intro k
  induction k with
  | zero => intro i hi; simp at hi
  | succ k ih =>
    intro i hi
    rw [List.replicate_succ, List.flatten_cons]
    by_cases hlt : i < v.length
    · rw [List.getElem?_append_left hlt, Nat.mod_eq_of_lt hlt]
    · push_neg at hlt
      rcases Nat.eq_zero_or_pos v.length with h0 | hpos
      · rw [h0] at hi; simp at hi
      · rw [List.getElem?_append_right hlt]
        have hmul : (k + 1) * v.length = k * v.length + v.length := by ring
        have hsub : i - v.length < k * v.length := by omega
        rw [ih (i - v.length) hsub, ← Nat.mod_eq_sub_mod hlt]

theorem getElem?_eq_some_getD (v : List ℚ) (j : Nat) (h : j < v.length) :
    v[j]? = some (v.getD j 0) := by
  simp [List.getElem?_eq_getElem h, List.getD_eq_getElem?_getD]

theorem tileFeature_eq_cyclic (v : List ℚ) (d : Nat) (hv : v ≠ [])
    (hlt : v.length < d) : tileFeature v d = cyclicFeature v d := by
  have hL : 0 < v.length := List.length_pos.mpr hv
  have hdk : d ≤ (d / v.length + 1) * v.length := by
    have h1 : v.length * (d / v.length) + d % v.length = d := Nat.div_add_mod d v.length
    rw [Nat.mul_comm] at h1
    have h2 : d % v.length < v.length := Nat.mod_lt d hL
    have h3 : (d / v.length + 1) * v.length = d / v.length * v.length + v.length := by
      ring
    omega
  unfold tileFeature cyclicFeature
  rw [if_pos hlt]
  apply List.ext_getElem?
  intro i
  by_cases hid : i < d
  · rw [List.getElem?_take_of_lt hid,
      flatten_replicate_getElem? v (d / v.length + 1) i (lt_of_lt_of_le hid hdk),
      List.getElem?_map, List.getElem?_range hid,
      getElem?_eq_some_getD v _ (Nat.mod_lt i hL)]
    rfl
  · push_neg at hid
    have hlen1 : ((List.flatten (List.replicate (d / v.length + 1) v)).take d).length = d := by
      rw [List.length_take, List.length_flatten, List.map_replicate,
        List.sum_const_nat]
      exact Nat.min_eq_left hdk
    rw [List.getElem?_eq_none (by rw [hlen1]; exact hid),
      List.getElem?_eq_none (by rw [List.length_map, List.length_range]; exact hid)]

theorem pySplit_ne_nil (sep : Char) (cs : List Char) : pySplit sep cs ≠ [] := by
  cases cs with
  | nil => simp [pySplit]
  | cons c rest =>
    unfold pySplit
    cases h : pySplit sep rest with
    | nil => simp
    | cons t ts =>
      by_cases hc : c = sep <;> simp [hc]

theorem floatList_length : ∀ (ts : List (List Char)) (qs : List ℚ),
    floatList ts = some qs → qs.length = ts.length := by
  intro ts
  induction ts with
  | nil => intro qs h; unfold floatList at h; injection h with h; rw [← h]; rfl
  | cons t ts ih =>
    intro qs h
    unfold floatList at h
    cases hq : pyFloat (pyStrip t) with
    | none => rw [hq] at h; exact absurd h (by simp)
    | some q =>
      rw [hq] at h
      cases hrest : floatList ts with
      | none => rw [hrest] at h; exact absurd h (by simp)
      | some qs2 =>
        rw [hrest] at h
        injection h with h
        rw [← h]
        simp [ih qs2 hrest]

theorem parse_ok_ne_nil {s : List Char} {xs : List ℚ}
    (h : parse_input_string s = .ok xs) : xs ≠ [] := by
  unfold parse_input_string at h
  cases hf : floatList (pySplit ',' s) with
  | none => rw [hf] at h; exact absurd h (by simp)
  | some qs =>
    rw [hf] at h
    injection h with h
    subst h
    have hlen := floatList_length _ _ hf
    have := pySplit_ne_nil ',' s
    intro hnil
    rw [hnil] at hlen
    exact this (List.eq_nil_of_length_eq_zero hlen.symm)

theorem isEmpty_false_of_ne_nil {v : List ℚ} (hv : v ≠ []) : v.isEmpty = false := by
  cases v with
  | nil => exact absurd rfl hv
  | cons a t => rfl

theorem tile_neg {v : List ℚ} (hv : v ≠ []) {b : Int} (hb : b < 0) (d : Nat) :
    tile_input_data v b d = .error "negative dimensions are not allowed" := by
  unfold tile_input_data
  rw [isEmpty_false_of_ne_nil hv]
  simp only [Bool.false_eq_true, if_false]
  rw [if_pos hb]

theorem tile_zero {v : List ℚ} (hv : v ≠ []) (d : Nat) :
    tile_input_data v 0 d = .ok [] := by
  unfold tile_input_data
  rw [isEmpty_false_of_ne_nil hv]
  simp only [Bool.false_eq_true, if_false]
  rw [if_neg (by decide : ¬ (0 : Int) < 0)]
  rfl

theorem tile_ok_length {v : List ℚ} {b : Int} {d : Nat} {M : List (List ℚ)}
    (h : tile_input_data v b d = .ok M) : M.length = b.toNat := by
  unfold tile_input_data at h
  by_cases hv : v.isEmpty = true
  · rw [if_pos hv] at h
    exact Except.noConfusion h
  · rw [if_neg hv] at h
    by_cases hb : b < 0
    · rw [if_pos hb] at h
      exact Except.noConfusion h
    · rw [if_neg hb] at h
      injection h with h
      rw [← h, List.length_replicate]

/-- Claim C1: for every weight set and every input batch, the naive engine's
forward and the optimized engine's forward compute the identical mathematical
function `relu(x·W1 + b1)·W2 + b2`: given `batch ≤ max_batch_size` for the
optimized engine, the optimized call succeeds, its returned view equals the
naive output exactly (exact arithmetic), and the elementwise max absolute
difference of the two outputs is `0`, below the fixed correctness tolerance
`1e-4`. -/
theorem c1_naive_optimized_equivalent (W1 : List (List ℚ)) (b1 : List ℚ)
    (W2 : List (List ℚ)) (b2 : List ℚ) (hb ob x : List (List ℚ))
    (h : x.length ≤ hb.length) :
    ∃ out, ((OptEngine.mk W1 b1 W2 b2 hb ob).forward x).1 = .ok out ∧
      out = naiveForward W1 b1 W2 b2 x ∧
      maxAbsDiff (naiveForward W1 b1 W2 b2 x) out = 0 ∧
      maxAbsDiff (naiveForward W1 b1 W2 b2 x) out < 1 / 10000 := by
  refine ⟨naiveForward W1 b1 W2 b2 x, ?_, rfl, maxAbsDiff_self _, ?_⟩
  · rw [OptEngine.forward_eq_of_le _ x h]
  · rw [maxAbsDiff_self]
    norm_num

theorem c1_naive_optimized_equivalent_witness :
    ∃ out, ((OptEngine.mk [[2]] [1] [[3]] [0] [[0]] [[0]]).forward [[5]]).1 = .ok out ∧
      out = naiveForward [[2]] [1] [[3]] [0] [[5]] ∧
      maxAbsDiff (naiveForward [[2]] [1] [[3]] [0] [[5]]) out = 0 ∧
      maxAbsDiff (naiveForward [[2]] [1] [[3]] [0] [[5]]) out < 1 / 10000 :=
  c1_naive_optimized_equivalent [[2]] [1] [[3]] [0] [[0]] [[0]] [[5]] (by decide)

/-- Claim C2: whenever `x.shape[0] > max_batch_size` (i.e. more input rows
than buffer rows), the optimized engine's forward returns the capacity error
whose message names both the requested batch size and the configured buffer
size, and the engine state — in particular both scratch buffers — is exactly
the state before the call (the guard precedes every arithmetic write). -/
theorem c2_capacity_error_no_mutation (e : OptEngine) (x : List (List ℚ))
    (h : e.hidden_buf.length < x.length) :
    e.forward x =
      (.error ("Batch size " ++ toString x.length ++
        " exceeds allocated buffer size " ++ toString e.hidden_buf.length), e) := by
  unfold OptEngine.forward
  rw [if_pos h]

theorem c2_capacity_error_no_mutation_witness :
    (OptEngine.mk [[1]] [0] [[1]] [0] [[0]] [[0]]).forward [[1], [2]] =
      (.error ("Batch size " ++ toString 2 ++
        " exceeds allocated buffer size " ++ toString 1),
       OptEngine.mk [[1]] [0] [[1]] [0] [[0]] [[0]]) :=
  c2_capacity_error_no_mutation (OptEngine.mk [[1]] [0] [[1]] [0] [[0]] [[0]])
    [[1], [2]] (by decide)

/-- Claim C4: across two successful forward calls on the same optimized
engine, each call writes only the first `batch` rows of the scratch buffers:
after the first call the rows beyond `x1.length` of both buffers are exactly
the original rows, buffer capacity is preserved, and the second call's
returned view equals `naiveForward` of the second input — a function of the
second input and the weights only, with no leakage from the first call. -/
theorem c4_no_cross_call_leakage (W1 : List (List ℚ)) (b1 : List ℚ)
    (W2 : List (List ℚ)) (b2 : List ℚ) (hb ob x1 x2 : List (List ℚ))
    (h1 : x1.length ≤ hb.length) (h2 : x2.length ≤ hb.length) :
    (((OptEngine.mk W1 b1 W2 b2 hb ob).forward x1).2.hidden_buf.drop x1.length
        = hb.drop x1.length) ∧
    (((OptEngine.mk W1 b1 W2 b2 hb ob).forward x1).2.output_buf.drop x1.length
        = ob.drop x1.length) ∧
    (((OptEngine.mk W1 b1 W2 b2 hb ob).forward x1).2.hidden_buf.length = hb.length) ∧
    ((((OptEngine.mk W1 b1 W2 b2 hb ob).forward x1).2.forward x2).1
        = .ok (naiveForward W1 b1 W2 b2 x2)) := by
  rw [OptEngine.forward_eq_of_le _ x1 h1]
  have hlen : (reluM (addBias (matMul x1 W1) b1) ++ hb.drop x1.length).length
      = hb.length := by
    rw [List.length_append, length_reluM, length_addBias, length_matMul,
      List.length_drop]
    omega
  have hlen2 : (naiveForward W1 b1 W2 b2 x1).length = x1.length := by
    unfold naiveForward
    rw [length_addBias, length_matMul, length_reluM, length_addBias, length_matMul]
  refine ⟨?_, ?_, ?_, ?_⟩
  · rw [List.drop_left']
    rw [length_reluM, length_addBias, length_matMul]
  · rw [List.drop_left' hlen2]
  · exact hlen
  · rw [OptEngine.forward_eq_of_le]
    exact hlen ▸ h2

theorem c4_no_cross_call_leakage_witness :
    (((OptEngine.mk [[2]] [1] [[3]] [0] [[0], [9]] [[0], [8]]).forward [[7]]).2.hidden_buf.drop 1
        = ([[0], [9]] : List (List ℚ)).drop 1) ∧
    (((OptEngine.mk [[2]] [1] [[3]] [0] [[0], [9]] [[0], [8]]).forward [[7]]).2.output_buf.drop 1
        = ([[0], [8]] : List (List ℚ)).drop 1) ∧
    (((OptEngine.mk [[2]] [1] [[3]] [0] [[0], [9]] [[0], [8]]).forward [[7]]).2.hidden_buf.length
        = ([[0], [9]] : List (List ℚ)).length) ∧
    ((((OptEngine.mk [[2]] [1] [[3]] [0] [[0], [9]] [[0], [8]]).forward [[7]]).2.forward [[4]]).1
        = .ok (naiveForward [[2]] [1] [[3]] [0] [[4]])) :=
  c4_no_cross_call_leakage [[2]] [1] [[3]] [0] [[0], [9]] [[0], [8]] [[7]] [[4]]
    (by decide) (by decide)

/-- Claim C3: for every non-empty float list `v`, non-negative batch size `b`
and input dimension `d`, `tile_input_data` returns a `(b, d)` array each of
whose rows is the same feature vector: `v` cyclically repeated then
truncated to length `d` when `len(v) < d` (entry `i` is `v[i % len v]`),
otherwise the first `d` elements of `v`; in particular `[1.0, 2.0]` with
`d = 5` yields `[1.0, 2.0, 1.0, 2.0, 1.0]` and with `d = 2` yields
`[1.0, 2.0]`. -/
theorem c3_tile_cyclic_repeat (v : List ℚ) (b : Int) (d : Nat)
    (hv : v ≠ []) (hb : 0 ≤ b) :
    tile_input_data v b d =
      .ok (List.replicate b.toNat
        (if v.length < d then cyclicFeature v d else v.take d)) ∧
    (if v.length < d then cyclicFeature v d else v.take d).length = d ∧
    (∀ M, tile_input_data v b d = .ok M → M.length = b.toNat ∧
      ∀ row ∈ M, row = (if v.length < d then cyclicFeature v d else v.take d)) ∧
    tile_input_data [1, 2] 1 5 = .ok [[1, 2, 1, 2, 1]] ∧
    tile_input_data [1, 2] 1 2 = .ok [[1, 2]] := by
  have hne : v.isEmpty = false := by
    cases v with
    | nil => exact absurd rfl hv
    | cons a t => rfl
  have hmain : tile_input_data v b d =
      .ok (List.replicate b.toNat
        (if v.length < d then cyclicFeature v d else v.take d)) := by
    unfold tile_input_data
    rw [hne, if_neg (not_lt.mpr hb)]
    simp only [Bool.false_eq_true, if_false]
    by_cases hlt : v.length < d
    · rw [if_pos hlt, ← tileFeature_eq_cyclic v d hv hlt]
    · rw [if_neg hlt]
      unfold tileFeature
      rw [if_neg hlt]
  refine ⟨hmain, ?_, ?_, rfl, rfl⟩
  · by_cases hlt : v.length < d
    · rw [if_pos hlt]
      unfold cyclicFeature
      rw [List.length_map, List.length_range]
    · rw [if_neg hlt, List.length_take]
      exact Nat.min_eq_left (not_lt.mp hlt)
  · intro M hM
    rw [hmain] at hM
    injection hM with hM
    subst hM
    exact ⟨List.length_replicate _ _, fun row hrow => List.eq_of_mem_replicate hrow⟩

theorem c3_tile_cyclic_repeat_witness :
    tile_input_data [1, 2] 1 5 =
      .ok (List.replicate (Int.toNat 1)
        (if ([(1 : ℚ), 2]).length < 5 then cyclicFeature [1, 2] 5
         else ([(1 : ℚ), 2]).take 5)) ∧
    (if ([(1 : ℚ), 2]).length < 5 then cyclicFeature [1, 2] 5
     else ([(1 : ℚ), 2]).take 5).length = 5 ∧
    (∀ M, tile_input_data [1, 2] 1 5 = .ok M → M.length = Int.toNat 1 ∧
      ∀ row ∈ M, row = (if ([(1 : ℚ), 2]).length < 5 then cyclicFeature [1, 2] 5
        else ([(1 : ℚ), 2]).take 5)) ∧
    tile_input_data [1, 2] 1 5 = .ok [[1, 2, 1, 2, 1]] ∧
    tile_input_data [1, 2] 1 2 = .ok [[1, 2]] :=
  c3_tile_cyclic_repeat [1, 2] 1 5 (by decide) (by decide)

/-- Claim C10: for every input string, `parse_input_string` either fails with
the malformed-format error or returns a list with at least one element (the
split of any string has at least one token); in particular the empty string
fails with the malformed-format error, and consequently the
`"Input data cannot be empty."` branch of `tile_input_data` is unreachable
when its input comes from a successful `parse_input_string`. -/
theorem c10_parse_never_empty :
    (∀ s : List Char, (∃ e, parse_input_string s = .error e) ∨
      ∃ xs, parse_input_string s = .ok xs ∧ xs ≠ []) ∧
    parse_input_string [] =
      .error "Invalid input format. Expected comma-separated floats (e.g., '1.0, 0.5, -0.2')." ∧
    (∀ (s : List Char) (xs : List ℚ) (b : Int) (d : Nat),
      parse_input_string s = .ok xs →
      tile_input_data xs b d ≠ .error "Input data cannot be empty.") := by
  refine ⟨?_, rfl, ?_⟩
  · intro s
    cases hp : parse_input_string s with
    | error e => exact .inl ⟨e, rfl⟩
    | ok xs => exact .inr ⟨xs, rfl, parse_ok_ne_nil hp⟩
  · intro s xs b d hp
    have hxs : xs ≠ [] := parse_ok_ne_nil hp
    have hne : xs.isEmpty = false := by
      cases xs with
      | nil => exact absurd rfl hxs
      | cons a t => rfl
    unfold tile_input_data
    rw [hne]
    simp only [Bool.false_eq_true, if_false]
    by_cases hb : b < 0
    · rw [if_pos hb]
      intro h
      injection h with h
      exact absurd h (by decide)
    · rw [if_neg hb]
      intro h
      exact Except.noConfusion h

theorem c10_parse_never_empty_witness :
    tile_input_data [7] 2 3 ≠ .error "Input data cannot be empty." :=
  c10_parse_never_empty.2.2 "7".toList [7] 2 3 rfl

/-- Claim C5: in `'both'` mode the comparison block satisfies: speedup is
baseline latency over optimized latency, but `0` if the optimized latency is
`0`; memory savings percent is `(basePeak - optPeak)/basePeak · 100`, but
`0` if the baseline peak memory is `0`; correctness holds exactly when the
max elementwise absolute difference of the one-shot outputs is below `1e-4`
(stated under the physical non-negativity of measured latency and memory,
where the code's `> 0` guard coincides with the claim's `= 0` description). -/
theorem c5_comparison_formulas (baseLat basePeak optLat optPeak : ℚ)
    (outBase outOpt : List (List ℚ)) (hOpt : 0 ≤ optLat) (hBase : 0 ≤ basePeak) :
    (comparisonBlock baseLat basePeak optLat optPeak outBase outOpt).speedup_x =
      (if optLat = 0 then 0 else baseLat / optLat) ∧
    (comparisonBlock baseLat basePeak optLat optPeak outBase outOpt).memory_savings_percent =
      (if basePeak = 0 then 0 else (basePeak - optPeak) / basePeak * 100) ∧
    ((comparisonBlock baseLat basePeak optLat optPeak outBase outOpt).correctness = true ↔
      maxAbsDiff outBase outOpt < 1 / 10000) ∧
    (comparisonBlock baseLat basePeak optLat optPeak outBase outOpt).max_diff =
      maxAbsDiff outBase outOpt := by
  refine ⟨?_, ?_, ?_, rfl⟩
  · unfold comparisonBlock
    by_cases hz : optLat = 0
    · rw [if_pos hz, hz, if_neg (lt_irrefl 0)]
    · rw [if_neg hz, if_pos (lt_of_le_of_ne hOpt (Ne.symm hz))]
  · unfold comparisonBlock
    by_cases hz : basePeak = 0
    · rw [if_pos hz, hz, if_neg (lt_irrefl 0)]
    · rw [if_neg hz, if_pos (lt_of_le_of_ne hBase (Ne.symm hz))]
  · unfold comparisonBlock
    exact decide_eq_true_iff

theorem c5_comparison_formulas_witness :
    (comparisonBlock 2 1 1 1 [[1]] [[1]]).speedup_x =
      (if (1 : ℚ) = 0 then 0 else 2 / 1) ∧
    (comparisonBlock 2 1 1 1 [[1]] [[1]]).memory_savings_percent =
      (if (1 : ℚ) = 0 then 0 else ((1 : ℚ) - 1) / 1 * 100) ∧
    ((comparisonBlock 2 1 1 1 [[1]] [[1]]).correctness = true ↔
      maxAbsDiff [[1]] [[1]] < 1 / 10000) ∧
    (comparisonBlock 2 1 1 1 [[1]] [[1]]).max_diff = maxAbsDiff [[1]] [[1]] :=
  c5_comparison_formulas 2 1 1 1 [[1]] [[1]] zero_le_one zero_le_one

/-- Claim C6: two constructions of the model weights provider with identical
dimensions and seed (hence reading the same deterministic draw stream)
produce identical weight sets `(W1, b1, W2, b2)`, and both bias vectors are
zero-initialized. -/
theorem c6_deterministic_weights (randn : Nat → Nat → ℚ)
    (input_dim hidden_dim output_dim seed : Nat) (m1 m2 : MLPModel)
    (h1 : m1 = MLPModel.init randn input_dim hidden_dim output_dim seed)
    (h2 : m2 = MLPModel.init randn input_dim hidden_dim output_dim seed) :
    (m1.W1 = m2.W1 ∧ m1.b1 = m2.b1 ∧ m1.W2 = m2.W2 ∧ m1.b2 = m2.b2) ∧
    m1.b1 = List.replicate hidden_dim 0 ∧
    m1.b2 = List.replicate output_dim 0 := by
  subst h1
  subst h2
  exact ⟨⟨rfl, rfl, rfl, rfl⟩, rfl, rfl⟩

theorem c6_deterministic_weights_witness :
    ((MLPModel.init (fun s i => (s + i : ℚ)) 2 3 2 5).W1 =
        (MLPModel.init (fun s i => (s + i : ℚ)) 2 3 2 5).W1 ∧
      (MLPModel.init (fun s i => (s + i : ℚ)) 2 3 2 5).b1 =
        (MLPModel.init (fun s i => (s + i : ℚ)) 2 3 2 5).b1 ∧
      (MLPModel.init (fun s i => (s + i : ℚ)) 2 3 2 5).W2 =
        (MLPModel.init (fun s i => (s + i : ℚ)) 2 3 2 5).W2 ∧
      (MLPModel.init (fun s i => (s + i : ℚ)) 2 3 2 5).b2 =
        (MLPModel.init (fun s i => (s + i : ℚ)) 2 3 2 5).b2) ∧
    (MLPModel.init (fun s i => (s + i : ℚ)) 2 3 2 5).b1 = List.replicate 3 0 ∧
    (MLPModel.init (fun s i => (s + i : ℚ)) 2 3 2 5).b2 = List.replicate 2 0 :=
  c6_deterministic_weights (fun s i => (s + i : ℚ)) 2 3 2 5 _ _ rfl rfl

/-- Claim C7, counterexample: at input string `"7"`, `batch_size = 0` (a
non-positive batch size) and mode `'both'`, `run_analysis` does not fail
with a user-facing input error: input preparation succeeds, both engines are
constructed, and the run fails afterwards with an internal error (the NumPy
zero-size reduction in the profiler's output summary). -/
theorem c7_counterexample :
    resultIsInputError (runAnalysis (fun _ _ => 0) 1 1 1 1 "7".toList 0 .both).1 = false ∧
    (runAnalysis (fun _ _ => 0) 1 1 1 1 "7".toList 0 .both).1 =
      .error (.internalError
        "zero-size array to reduction operation minimum which has no identity") ∧
    Ev.engineNaiveInit ∈ (runAnalysis (fun _ _ => 0) 1 1 1 1 "7".toList 0 .both).2 ∧
    Ev.engineOptInit ∈ (runAnalysis (fun _ _ => 0) 1 1 1 1 "7".toList 0 .both).2 :=
  ⟨rfl, rfl, by decide, by decide⟩

/-- Claim C7, amended: `run_analysis` performs no explicit batch-size
validation.  For every negative batch size it does fail with a user-facing
input error during input preparation (NumPy's negative-dimension failure in
tiling, wrapped by the input-preparation handler); but for `batch_size = 0`
no input error is raised — preparation succeeds with a zero-row tensor, the
model and the selected engines are constructed, and the run fails later with
an internal error when the profiler summarizes an empty output. -/
theorem c7_amended_no_batch_validation (randn : Nat → Nat → ℚ)
    (latB memB latO memO : ℚ) (s : List Char) (b : Int) (mode : Mode)
    (raw : List ℚ) (hp : parse_input_string s = .ok raw) :
    (b < 0 → (runAnalysis randn latB memB latO memO s b mode).1 =
      .error (.inputError ("Error preparing input: " ++
        "negative dimensions are not allowed"))) ∧
    (b = 0 →
      resultIsInputError (runAnalysis randn latB memB latO memO s b mode).1 = false ∧
      (runAnalysis randn latB memB latO memO s b mode).1 =
        .error (.internalError
          "zero-size array to reduction operation minimum which has no identity") ∧
      Ev.modelInit ∈ (runAnalysis randn latB memB latO memO s b mode).2) := by
  have hraw : raw ≠ [] := parse_ok_ne_nil hp
  constructor
  · intro hb
    simp only [runAnalysis, hp, tile_neg hraw hb]
  · intro hb
    subst hb
    simp only [runAnalysis, hp, tile_zero hraw]
    cases mode with
    | baseline =>
      exact ⟨rfl, rfl, show Ev.modelInit ∈
        [Ev.parsedInput, Ev.tiledInput, Ev.modelInit, Ev.engineNaiveInit] by simp⟩
    | optimized =>
      exact ⟨rfl, rfl, show Ev.modelInit ∈
        [Ev.parsedInput, Ev.tiledInput, Ev.modelInit, Ev.engineOptInit] by simp⟩
    | both =>
      exact ⟨rfl, rfl, show Ev.modelInit ∈
        [Ev.parsedInput, Ev.tiledInput, Ev.modelInit, Ev.engineNaiveInit,
         Ev.engineOptInit] by simp⟩

theorem c7_amended_no_batch_validation_witness :
    (runAnalysis (fun _ _ => 0) 1 1 1 1 "7".toList (-1) .both).1 =
      .error (.inputError ("Error preparing input: " ++
        "negative dimensions are not allowed")) :=
  (c7_amended_no_batch_validation (fun _ _ => 0) 1 1 1 1 "7".toList (-1) .both
    [7] rfl).1 (by decide)

/-- Claim C8: whenever parsing the input string fails (in particular for the
empty string and any malformed, non-numeric string), `run_analysis` fails
with the wrapped input error raised during input preparation, and no model
initialization and no engine construction has happened (the recorded step
trace is empty); additionally the empty string does fail with the
malformed-format error. -/
theorem c8_input_error_before_engines (randn : Nat → Nat → ℚ)
    (latB memB latO memO : ℚ) (s : List Char) (b : Int) (mode : Mode)
    (e : String) (hp : parse_input_string s = .error e) :
    (runAnalysis randn latB memB latO memO s b mode).1 =
      .error (.inputError ("Error preparing input: " ++ e)) ∧
    (runAnalysis randn latB memB latO memO s b mode).2 = [] ∧
    Ev.modelInit ∉ (runAnalysis randn latB memB latO memO s b mode).2 ∧
    Ev.engineNaiveInit ∉ (runAnalysis randn latB memB latO memO s b mode).2 ∧
    Ev.engineOptInit ∉ (runAnalysis randn latB memB latO memO s b mode).2 ∧
    parse_input_string [] =
      .error "Invalid input format. Expected comma-separated floats (e.g., '1.0, 0.5, -0.2')." := by
  have hr : runAnalysis randn latB memB latO memO s b mode =
      (.error (.inputError ("Error preparing input: " ++ e)), []) := by
    unfold runAnalysis
    rw [hp]
  rw [hr]
  exact ⟨rfl, rfl, by simp, by simp, by simp, rfl⟩

theorem c8_input_error_before_engines_witness :
    (runAnalysis (fun _ _ => 0) 1 1 1 1 "".toList 3 .both).1 =
      .error (.inputError ("Error preparing input: " ++
        "Invalid input format. Expected comma-separated floats (e.g., '1.0, 0.5, -0.2').")) ∧
    (runAnalysis (fun _ _ => 0) 1 1 1 1 "".toList 3 .both).2 = [] ∧
    Ev.modelInit ∉ (runAnalysis (fun _ _ => 0) 1 1 1 1 "".toList 3 .both).2 ∧
    Ev.engineNaiveInit ∉ (runAnalysis (fun _ _ => 0) 1 1 1 1 "".toList 3 .both).2 ∧
    Ev.engineOptInit ∉ (runAnalysis (fun _ _ => 0) 1 1 1 1 "".toList 3 .both).2 ∧
    parse_input_string [] =
      .error "Invalid input format. Expected comma-separated floats (e.g., '1.0, 0.5, -0.2')." :=
  c8_input_error_before_engines (fun _ _ => 0) 1 1 1 1 "".toList 3 .both _ rfl

/-- Claim C9: on every successful input preparation of `run_analysis`, the
prepared tensor has exactly `batch_size` rows and the optimized engine is
constructed with `max_batch_size = batch_size` rows of buffer capacity, so
every forward call `run_analysis` makes on an engine with that capacity
succeeds — the capacity-exceeded branch is unreachable — and capacity is
preserved across calls. -/
theorem c9_capacity_unreachable (randn : Nat → Nat → ℚ) (s : List Char)
    (b : Int) (raw : List ℚ) (input_data : List (List ℚ))
    (hp : parse_input_string s = .ok raw)
    (ht : tile_input_data raw b INPUT_DIM = .ok input_data) :
    input_data.length = b.toNat ∧
    (OptEngine.init (MLPModel.init randn INPUT_DIM HIDDEN_DIM OUTPUT_DIM 42).W1
      (MLPModel.init randn INPUT_DIM HIDDEN_DIM OUTPUT_DIM 42).b1
      (MLPModel.init randn INPUT_DIM HIDDEN_DIM OUTPUT_DIM 42).W2
      (MLPModel.init randn INPUT_DIM HIDDEN_DIM OUTPUT_DIM 42).b2
      b.toNat HIDDEN_DIM OUTPUT_DIM).hidden_buf.length = b.toNat ∧
    (∀ st : OptEngine, st.hidden_buf.length = b.toNat →
      (st.forward input_data).1 =
        .ok (naiveForward st.W1 st.b1 st.W2 st.b2 input_data) ∧
      (st.forward input_data).2.hidden_buf.length = b.toNat) := by
  have hlen : input_data.length = b.toNat := tile_ok_length ht
  refine ⟨hlen, ?_, ?_⟩
  · unfold OptEngine.init
    exact List.length_replicate _ _
  · intro st hst
    have hle : input_data.length ≤ st.hidden_buf.length := by rw [hlen, hst]
    rw [OptEngine.forward_eq_of_le st input_data hle]
    refine ⟨rfl, ?_⟩
    have : (reluM (addBias (matMul input_data st.W1) st.b1)).length
        = input_data.length := by
      rw [length_reluM, length_addBias, length_matMul]
    rw [List.length_append, this, List.length_drop]
    omega

theorem c9_capacity_unreachable_witness :
    (([] : List (List ℚ)).length = Int.toNat 0) ∧
    ((OptEngine.mk [[1]] [0] [[1]] [0] [] []).forward []).1 =
      .ok (naiveForward [[1]] [0] [[1]] [0] []) ∧
    ((OptEngine.mk [[1]] [0] [[1]] [0] [] []).forward []).2.hidden_buf.length =
      Int.toNat 0 := by
  have h := c9_capacity_unreachable (fun _ _ => 0) "7".toList 0 [7] [] rfl rfl
  exact ⟨h.1, (h.2.2 (OptEngine.mk [[1]] [0] [[1]] [0] [] []) rfl).1,
    (h.2.2 (OptEngine.mk [[1]] [0] [[1]] [0] [] []) rfl).2⟩

end MLBench
